import Mathlib

/-!
A shallow embedding of the `its-wasmtime` runtime-composition layer.

The embedded code:
* `src/src/lib.rs` — `RuntimeView`, the `NestedView` registration contract,
  `Runtime`, and the `runtime` constructor, plus the two test fixtures
  (`SimpleComponentView` with `get_data`, and `ResourceView` with the
  `foo-resource` host implementation).
* `src/tests/simple_component/src/lib.rs` — the guest `hello_world` export
  and its `static COUNTER`.
* `src/tests/simple_resource/src/lib.rs` and
  `src/tests/simple_resource/src/bindings.rs` — the guest `test` export and
  the generated `Resource` wrapper (`take_handle`, `handle`, `Drop`).

The `ResourceTable` (push/get/delete) and the `Linker`'s duplicate-binding
behaviour live in the `wasmtime-wasi` / `wasmtime` crates, outside this
repository's sources; those two pieces are modelled from the spec and are
marked as such in their doc comments.
-/

/-! ## Resource Table -/

/-- Error returned by Resource Table lookups on dead handles. -/
inductive TableError where
  | notFound
deriving DecidableEq, Repr

/-- Look up the first entry with the given handle; `some none` means the
handle exists but was tombstoned, `none` means it was never issued. -/
def lookupEntries {α : Type} : List (Nat × Option α) → Nat → Option (Option α)
  | [], _ => none
  | e :: es, h => if e.1 = h then some e.2 else lookupEntries es h

/-- Tombstone the first entry with the given handle, keeping its slot so the
handle can never again resolve to a value. -/
def tombstoneEntries {α : Type} : List (Nat × Option α) → Nat → List (Nat × Option α)
  | [], _ => []
  | e :: es, h => if e.1 = h then (e.1, none) :: es else e :: tombstoneEntries es h

/-- Modelled from the spec: the generic Resource Table (spec section 4.1).
Its implementation is the `ResourceTable` of the `wasmtime-wasi` crate,
which is not part of this repository's sources; only its callers
(`HostFooResource` in `src/src/lib.rs`) are. Entries map a 32-bit handle to
a host-owned value; removal and transfer tombstone the slot (arena-plus-index
with explicit tombstoning, spec section 9), so a dead handle never resolves
again within the same table instance. -/
structure RTable (α : Type) where
  entries : List (Nat × Option α)
  next : Nat
deriving DecidableEq, Repr

/-- Fresh, empty table (`ResourceTable::new`). -/
def RTable.new {α : Type} : RTable α := ⟨[], 0⟩

/-- Modelled from the spec: `insert(value) -> handle` mints a fresh,
currently-unused handle (`ResourceTable::push`). -/
def RTable.insert {α : Type} (t : RTable α) (v : α) : Nat × RTable α :=
  (t.next, ⟨t.entries ++ [(t.next, some v)], t.next + 1⟩)

/-- Modelled from the spec: `get(handle) -> value or NotFound`
(`ResourceTable::get`). -/
def RTable.get {α : Type} (t : RTable α) (h : Nat) : Except TableError α :=
  match lookupEntries t.entries h with
  | some (some v) => Except.ok v
  | _ => Except.error TableError.notFound

/-- Modelled from the spec: `remove(handle) -> value or NotFound` removes and
returns ownership of the stored value; a second remove of the same handle
fails with `NotFound` (`ResourceTable::delete`). -/
def RTable.remove {α : Type} (t : RTable α) (h : Nat) : Except TableError (α × RTable α) :=
  match lookupEntries t.entries h with
  | some (some v) => Except.ok (v, ⟨tombstoneEntries t.entries h, t.next⟩)
  | _ => Except.error TableError.notFound

/-- Modelled from the spec: `take(handle)` logically transfers ownership
without destroying the value; the original handle is invalidated for all
further lookups. -/
def RTable.take {α : Type} (t : RTable α) (h : Nat) : Except TableError (α × RTable α) :=
  match lookupEntries t.entries h with
  | some (some v) => Except.ok (v, ⟨tombstoneEntries t.entries h, t.next⟩)
  | _ => Except.error TableError.notFound

/-- Table well-formedness: every recorded handle was minted below the
fresh-handle counter. Holds for every table reachable from `RTable.new`. -/
def RTable.WF {α : Type} (t : RTable α) : Prop :=
  ∀ e ∈ t.entries, e.1 < t.next

instance {α : Type} (t : RTable α) : Decidable t.WF :=
  inferInstanceAs (Decidable (∀ e ∈ t.entries, e.1 < t.next))

/-! ## Runtime construction (`src/src/lib.rs`, `runtime`) -/

/-- Construction-time errors of the `runtime` constructor: `anyhow` errors
surfaced by `Engine::new`, `add_to_linker_async` and `add_all_to_linker`;
a duplicate binding is a link-collision error carrying the colliding name. -/
inductive RtError where
  | linkCollision (name : String)
deriving DecidableEq, Repr

/-- Modelled from the spec: the Linker is a registry keyed by
interface/function name; duplicate registration is a construction-time
error, not a silent override (spec section 3). The `wasmtime`
`component::Linker` implementing this is outside this repository's sources. -/
structure LinkerM where
  bound : List String
deriving DecidableEq, Repr

/-- Modelled from the spec: binding one name in the Linker; fails with a
link collision if the name is already claimed. -/
def LinkerM.bind (l : LinkerM) (n : String) : Except RtError LinkerM :=
  if n ∈ l.bound then Except.error (RtError.linkCollision n)
  else Except.ok ⟨l.bound ++ [n]⟩

/-- Bind a list of names left to right, stopping at the first collision. -/
def bindAll (l : LinkerM) : List String → Except RtError LinkerM
  | [] => Except.ok l
  | n :: ns =>
    match l.bind n with
    | Except.error e => Except.error e
    | Except.ok l1 => bindAll l1 ns

/-- The `wasmtime::Engine` as configured by `runtime`: `Config::new()` with
`wasm_component_model(true)` and `async_support(true)`. -/
structure EngineM where
  componentModel : Bool
  asyncSupport : Bool
deriving DecidableEq, Repr

/-- The engine built by `runtime`: component model on, async support on.
`Engine::new(&config)` is fallible in Rust but deterministic on this fixed
valid configuration. -/
def engineDefault : EngineM := ⟨true, true⟩

/-- The `WasiCtx` as built by `RuntimeView::new`:
`WasiCtxBuilder::new().inherit_stdio().build()`. -/
structure WasiCtxM where
  inheritStdio : Bool
deriving DecidableEq, Repr

/-- A capability provider (`T : NestedView`): a caller-chosen state of type
`P` plus the list of names its `add_all_to_linker` binds, in order. -/
structure ProviderM (P : Type) where
  state : P
  binds : List String

/-- The provider's registration entry point
(`NestedView::add_all_to_linker`): installs each of its bindings into the
Linker, failing on the first collision. -/
def ProviderM.add_all_to_linker {P : Type} (pv : ProviderM P) (l : LinkerM) :
    Except RtError LinkerM :=
  bindAll l pv.binds

/-- `RuntimeView<T>`: the per-store Execution Context owning the Resource
Table, the WASI context and the nested view. Table entries are opaque boxed
values, modelled as `Unit`. -/
structure RuntimeViewM (P : Type) where
  table : RTable Unit
  ctx : WasiCtxM
  nested_view : P

/-- `RuntimeView::new`: builds a fresh table, then the WASI context with
inherited stdio, then moves the caller-supplied nested view in unchanged. -/
def RuntimeViewM.new {P : Type} (nested_view : P) : RuntimeViewM P :=
  ⟨RTable.new, ⟨true⟩, nested_view⟩

/-- `wasmtime::Store<RuntimeView<T>>` as built by
`Store::new(&engine, runtime_view)`. -/
structure StoreM (P : Type) where
  engine : EngineM
  data : RuntimeViewM P

/-- The assembled `Runtime<T>`: engine, linker and store. -/
structure RuntimeM (P : Type) where
  engine : EngineM
  linker : LinkerM
  store : StoreM P

/-- Construction events, in the order the `runtime` constructor performs
them; `buildTable`, `buildCtx` and `moveProvider` are the internal steps of
`RuntimeView::new`. -/
inductive Event where
  | buildEngine
  | buildLinker
  | installWasi
  | register
  | buildTable
  | buildCtx
  | moveProvider
  | buildStore
deriving DecidableEq, Repr

/-- The tail of `runtime` after the Linker holds `l1`: call the provider's
registration entry point, then build the Execution Context and the Store. -/
def runtimeFromLinker (P : Type) (pv : ProviderM P) (l1 : LinkerM) (tr : List Event) :
    List Event × Except RtError (RuntimeM P) :=
  match pv.add_all_to_linker l1 with
  | Except.error e => (tr ++ [Event.register], Except.error e)
  | Except.ok l2 =>
    (tr ++ [Event.register, Event.buildTable, Event.buildCtx, Event.moveProvider,
        Event.buildStore],
      Except.ok ⟨engineDefault, l2, ⟨engineDefault, RuntimeViewM.new pv.state⟩⟩)

/-- The `runtime` constructor (`src/src/lib.rs` lines 49-78), instrumented
with the trace of construction events it performs: build the engine, build
an empty linker, install the WASI bindings when `with_wasi` is set
(`wasiNames` are the names of the reserved OS-capability namespace claimed
by `add_to_linker_async`), invoke the provider's registration entry point,
then build the Execution Context and the Store. Each fallible step
short-circuits with its error. -/
def runtimeM (P : Type) (wasiNames : List String) (with_wasi : Bool) (pv : ProviderM P) :
    List Event × Except RtError (RuntimeM P) :=
  if with_wasi then
    match bindAll ⟨[]⟩ wasiNames with
    | Except.error e =>
      ([Event.buildEngine, Event.buildLinker, Event.installWasi], Except.error e)
    | Except.ok l1 =>
      runtimeFromLinker P pv l1 [Event.buildEngine, Event.buildLinker, Event.installWasi]
  else
    runtimeFromLinker P pv ⟨[]⟩ [Event.buildEngine, Event.buildLinker]

/-! ## Guest-side resource wrapper (`src/tests/simple_resource/src/bindings.rs`) -/

/-- The invalid-handle sentinel: `u32::MAX`. -/
def u32Max : Nat := 2 ^ 32 - 1

/-- The generated `Resource<T>` wrapper: an `AtomicU32` holding, almost all
the time, a valid handle value; when invalid it is stored as `u32::MAX`. -/
structure ResourceR where
  handle : Nat
deriving DecidableEq, Repr

/-- `Resource::take_handle`: `resource.handle.swap(u32::MAX, Relaxed)` —
returns the previous handle value and stores the sentinel. -/
def ResourceR.take_handle (r : ResourceR) : Nat × ResourceR :=
  (r.handle, ⟨u32Max⟩)

/-- `Resource::handle`: `resource.handle.load(Relaxed)`. -/
def ResourceR.handleLoad (r : ResourceR) : Nat :=
  r.handle

/-- The `Drop` impl of `Resource<T>`: returns the handle passed to the
`[resource-drop]` intrinsic `T::drop`, or `none` when the destructor is a
no-op because the handle was taken (stored value `u32::MAX`). -/
def resourceDropCall (r : ResourceR) : Option Nat :=
  if r.handle = u32Max then none else some r.handle

/-! ## Scenario A (`simple_component`) -/

/-- The scenario-A capability provider (`SimpleComponentView` in
`src/src/lib.rs`): its only state is the seeded message. -/
structure SimpleComponentView where
  message : String
deriving DecidableEq, Repr

/-- `host::Host::get_data` for `SimpleComponentView`: returns a clone of the
seeded message. -/
def get_data (v : SimpleComponentView) : String :=
  v.message

/-- Wrap an integer into the `i32` range, as `AtomicI32::fetch_add` does on
overflow. -/
def wrap32 (n : Int) : Int :=
  (n + 2 ^ 31) % 2 ^ 32 - 2 ^ 31

/-- The guest component's instance state: the `static COUNTER: AtomicI32`
of `src/tests/simple_component/src/lib.rs`, initialised to `0` in each
fresh instantiation's linear memory. -/
structure GuestAState where
  counter : Int
deriving DecidableEq, Repr

/-- The guest's `hello_world` export:
`format` of `host::get_data()`, a space, and `COUNTER.fetch_add(1, Relaxed)`
(which returns the previous counter value and stores its increment). -/
def hello_world (v : SimpleComponentView) (g : GuestAState) : String × GuestAState :=
  (get_data v ++ " " ++ toString g.counter, ⟨wrap32 (g.counter + 1)⟩)

/-- One Runtime of scenario A: the provider instance plus the guest
component instance's state. -/
structure Session where
  view : SimpleComponentView
  guest : GuestAState
deriving DecidableEq, Repr

/-- A freshly constructed and instantiated Runtime for scenario A: provider
seeded with `msg`, guest counter at its initial value `0`. -/
def freshSession (msg : String) : Session :=
  ⟨⟨msg⟩, ⟨0⟩⟩

/-- Invoke the guest's exported `hello_world` once on one Runtime. -/
def invoke (s : Session) : String × Session :=
  let r := hello_world s.view s.guest
  (r.1, ⟨s.view, r.2⟩)

/-- In a process holding two Runtimes, invoke `hello_world` `n` times on
the first Runtime only. -/
def invokeFirstN : Nat → Session × Session → Session × Session
  | 0, p => p
  | n + 1, p => invokeFirstN n ((invoke p.1).2, p.2)

/-! ## Scenario B (`simple_resource`) -/

/-- The host-owned resource of scenario B (`SomeResource` in
`src/src/lib.rs`). -/
structure SomeResource where
  message : String
deriving DecidableEq, Repr

/-- `HostFooResource::new` for `ResourceView`: pushes a `SomeResource` with
message `"noodles"` into the view's table and returns the handle. -/
def fooResourceNew (t : RTable SomeResource) : Nat × RTable SomeResource :=
  t.insert ⟨"noodles"⟩

/-- `HostFooResource::foo`: gets the resource behind the handle from the
table and returns a clone of its stored message. -/
def fooResourceFoo (t : RTable SomeResource) (h : Nat) : Except TableError String :=
  (t.get h).map SomeResource.message

/-- `HostFooResource::drop`: deletes the table entry behind the handle,
propagating `NotFound` as an error rather than panicking. -/
def fooResourceDrop (t : RTable SomeResource) (h : Nat) :
    Except TableError (RTable SomeResource) :=
  (t.remove h).map Prod.snd

/-- The guest's `test` export (`src/tests/simple_resource/src/lib.rs`):
construct a `FooResource`, call its `foo` method, and format the result
after `"Hello, World! "`. -/
def guestTest (t : RTable SomeResource) : Except TableError String :=
  let n := fooResourceNew t
  match fooResourceFoo n.2 n.1 with
  | Except.error e => Except.error e
  | Except.ok value => Except.ok ("Hello, World! " ++ value)

/-! ## Helper lemmas: Linker binding -/

theorem bindAll_ok_bound (ns : List String) (l l' : LinkerM)
    (h : bindAll l ns = Except.ok l') : l'.bound = l.bound ++ ns := by
  induction ns generalizing l with
  | nil =>
    simp only [bindAll] at h
    cases h
    simp
  | cons n ns ih =>
    simp only [bindAll, LinkerM.bind] at h
    by_cases hmem : n ∈ l.bound
    · simp [hmem] at h
    · simp only [hmem, if_false] at h
      have := ih ⟨l.bound ++ [n]⟩ h
      simpa using this

theorem bindAll_error_of_mem (ns : List String) (l : LinkerM) (n : String)
    (hns : n ∈ ns) (hb : n ∈ l.bound) :
    ∃ m, bindAll l ns = Except.error (RtError.linkCollision m) := by
  induction ns generalizing l with
  | nil => cases hns
  | cons k ns ih =>
    simp only [bindAll, LinkerM.bind]
    by_cases hk : k ∈ l.bound
    · exact ⟨k, by simp [hk]⟩
    · rcases List.mem_cons.mp hns with rfl | hns'
      · exact absurd hb hk
      · have hb' : n ∈ (LinkerM.mk (l.bound ++ [k])).bound := by
          simp [hb]
        rcases ih ⟨l.bound ++ [k]⟩ hns' hb' with ⟨m, hm⟩
        exact ⟨m, by simp [hk, hm]⟩

/-! ## Helper lemmas: runtime construction -/

theorem runtimeFromLinker_ok (P : Type) (pv : ProviderM P) (l1 : LinkerM) (tr : List Event)
    (r : RuntimeM P) (h : (runtimeFromLinker P pv l1 tr).2 = Except.ok r) :
    (runtimeFromLinker P pv l1 tr).1 =
      tr ++ [Event.register, Event.buildTable, Event.buildCtx, Event.moveProvider,
          Event.buildStore]
    ∧ ∃ l2, pv.add_all_to_linker l1 = Except.ok l2
        ∧ r = ⟨engineDefault, l2, ⟨engineDefault, RuntimeViewM.new pv.state⟩⟩ := by
  cases hreg : pv.add_all_to_linker l1 with
  | error e =>
    simp only [runtimeFromLinker, hreg] at h
    exact Except.noConfusion h
  | ok l2 =>
    simp only [runtimeFromLinker, hreg, Except.ok.injEq] at h
    constructor
    · unfold runtimeFromLinker
      rw [hreg]
    · exact ⟨l2, rfl, h.symm⟩

theorem runtimeFromLinker_error (P : Type) (pv : ProviderM P) (l1 : LinkerM) (tr : List Event)
    (e : RtError) (h : (runtimeFromLinker P pv l1 tr).2 = Except.error e) :
    (runtimeFromLinker P pv l1 tr).1 = tr ++ [Event.register]
    ∧ pv.add_all_to_linker l1 = Except.error e := by
  cases hreg : pv.add_all_to_linker l1 with
  | error e' =>
    simp only [runtimeFromLinker, hreg, Except.error.injEq] at h
    subst h
    constructor
    · unfold runtimeFromLinker
      rw [hreg]
    · exact rfl
  | ok l2 =>
    simp only [runtimeFromLinker, hreg] at h
    exact Except.noConfusion h

/-! ## Claim C1 -/

/-- C1: for every capability provider and every `with_wasi` flag, `runtime`
performs its steps in the fixed order — engine with component model and
asynchronous execution enabled, empty linker, optional WASI install,
exactly one call of the provider's registration entry point, Execution
Context, and only then the Store — and on success returns the assembled
Runtime (engine, linker, store), while any fatal error short-circuits
before the Store is built. -/
theorem runtime_construction_order (P : Type) (wasiNames : List String)
    (with_wasi : Bool) (pv : ProviderM P) :
    (∀ r, (runtimeM P wasiNames with_wasi pv).2 = Except.ok r →
      (runtimeM P wasiNames with_wasi pv).1 =
        [Event.buildEngine, Event.buildLinker]
          ++ (if with_wasi then [Event.installWasi] else [])
          ++ [Event.register, Event.buildTable, Event.buildCtx, Event.moveProvider,
              Event.buildStore]
      ∧ (runtimeM P wasiNames with_wasi pv).1.count Event.register = 1
      ∧ r.engine = engineDefault
      ∧ r.store.engine = engineDefault
      ∧ r.store.data = RuntimeViewM.new pv.state)
    ∧ (∀ e, (runtimeM P wasiNames with_wasi pv).2 = Except.error e →
        Event.buildStore ∉ (runtimeM P wasiNames with_wasi pv).1) := by
  cases with_wasi with
  | false =>
    have hdef : runtimeM P wasiNames false pv
        = runtimeFromLinker P pv ⟨[]⟩ [Event.buildEngine, Event.buildLinker] := rfl
    rw [hdef]
    constructor
    · intro r hr
      rcases runtimeFromLinker_ok P pv ⟨[]⟩ _ r hr with ⟨htr, l2, hreg, hr2⟩
      subst hr2
      refine ⟨?_, ?_, rfl, rfl, rfl⟩
      · rw [htr]
        rfl
      · rw [htr]
        decide
    · intro e he
      rcases runtimeFromLinker_error P pv ⟨[]⟩ _ e he with ⟨htr, _⟩
      rw [htr]
      simp
  | true =>
    cases hb : bindAll ⟨[]⟩ wasiNames with
    | error e0 =>
      have hdef : runtimeM P wasiNames true pv
          = ([Event.buildEngine, Event.buildLinker, Event.installWasi], Except.error e0) := by
        unfold runtimeM
        rw [hb]
        rfl
      rw [hdef]
      constructor
      · intro r hr
        exact Except.noConfusion hr
      · intro e he
        simp
    | ok l1 =>
      have hdef : runtimeM P wasiNames true pv
          = runtimeFromLinker P pv l1
              [Event.buildEngine, Event.buildLinker, Event.installWasi] := by
        unfold runtimeM
        rw [hb]
        rfl
      rw [hdef]
      constructor
      · intro r hr
        rcases runtimeFromLinker_ok P pv l1 _ r hr with ⟨htr, l2, hreg, hr2⟩
        subst hr2
        refine ⟨?_, ?_, rfl, rfl, rfl⟩
        · rw [htr]
          rfl
        · rw [htr]
          decide
      · intro e he
        rcases runtimeFromLinker_error P pv l1 _ e he with ⟨htr, _⟩
        rw [htr]
        simp

/-- The Runtime assembled at the concrete input of the C1 witness. -/
def rtWitnessC1 : RuntimeM Unit :=
  ⟨engineDefault, ⟨["wasi:cli", "host"]⟩, ⟨engineDefault, RuntimeViewM.new ()⟩⟩

/-- Witness for `runtime_construction_order` at a concrete successful
construction. -/
theorem runtime_construction_order_witness :
    (runtimeM Unit ["wasi:cli"] true (ProviderM.mk () ["host"])).2 = Except.ok rtWitnessC1
    ∧ ((runtimeM Unit ["wasi:cli"] true (ProviderM.mk () ["host"])).1 =
        [Event.buildEngine, Event.buildLinker]
          ++ (if true then [Event.installWasi] else [])
          ++ [Event.register, Event.buildTable, Event.buildCtx, Event.moveProvider,
              Event.buildStore]
      ∧ (runtimeM Unit ["wasi:cli"] true (ProviderM.mk () ["host"])).1.count
          Event.register = 1
      ∧ rtWitnessC1.engine = engineDefault
      ∧ rtWitnessC1.store.engine = engineDefault
      ∧ rtWitnessC1.store.data = RuntimeViewM.new ()) :=
  ⟨rfl,
    (runtime_construction_order Unit ["wasi:cli"] true (ProviderM.mk () ["host"])).1
      rtWitnessC1 rfl⟩

/-! ## Claim C3 -/

/-- C3: a capability provider whose registration binds a name already
claimed by the reserved OS-capability namespace makes construction fail
deterministically with a link-collision error; no Store is produced, no
Execution Context is built, and no partial Runtime escapes. -/
theorem runtime_link_collision_no_store (P : Type) (wasiNames : List String)
    (pv : ProviderM P) (n : String) (hw : n ∈ wasiNames) (hp : n ∈ pv.binds) :
    (∃ m, (runtimeM P wasiNames true pv).2 = Except.error (RtError.linkCollision m))
    ∧ Event.buildStore ∉ (runtimeM P wasiNames true pv).1
    ∧ Event.buildTable ∉ (runtimeM P wasiNames true pv).1
    ∧ Event.moveProvider ∉ (runtimeM P wasiNames true pv).1 := by
  cases hb : bindAll ⟨[]⟩ wasiNames with
  | error e0 =>
    have hdef : runtimeM P wasiNames true pv
        = ([Event.buildEngine, Event.buildLinker, Event.installWasi], Except.error e0) := by
      unfold runtimeM
      rw [hb]
      rfl
    rcases e0 with ⟨m⟩
    rw [hdef]
    exact ⟨⟨m, rfl⟩, by simp, by simp, by simp⟩
  | ok l1 =>
    have hwb : l1.bound = wasiNames := by
      simpa using bindAll_ok_bound wasiNames ⟨[]⟩ l1 hb
    have hb' : n ∈ l1.bound := hwb ▸ hw
    rcases bindAll_error_of_mem pv.binds l1 n hp hb' with ⟨m, hm⟩
    have hreg : pv.add_all_to_linker l1 = Except.error (RtError.linkCollision m) := hm
    have hdef : runtimeM P wasiNames true pv
        = runtimeFromLinker P pv l1
            [Event.buildEngine, Event.buildLinker, Event.installWasi] := by
      unfold runtimeM
      rw [hb]
      rfl
    have hpair : runtimeFromLinker P pv l1
          [Event.buildEngine, Event.buildLinker, Event.installWasi]
        = ([Event.buildEngine, Event.buildLinker, Event.installWasi, Event.register],
            Except.error (RtError.linkCollision m)) := by
      unfold runtimeFromLinker
      rw [hreg]
      rfl
    rw [hdef, hpair]
    exact ⟨⟨m, rfl⟩, by simp, by simp, by simp⟩

/-- Witness for `runtime_link_collision_no_store`: a provider that binds
the already-claimed reserved name `"wasi:cli"`. -/
theorem runtime_link_collision_no_store_witness :
    ("wasi:cli" ∈ ["wasi:cli"] ∧ "wasi:cli" ∈ (ProviderM.mk () ["wasi:cli"]).binds)
    ∧ ((∃ m, (runtimeM Unit ["wasi:cli"] true (ProviderM.mk () ["wasi:cli"])).2
          = Except.error (RtError.linkCollision m))
      ∧ Event.buildStore ∉ (runtimeM Unit ["wasi:cli"] true (ProviderM.mk () ["wasi:cli"])).1
      ∧ Event.buildTable ∉ (runtimeM Unit ["wasi:cli"] true (ProviderM.mk () ["wasi:cli"])).1
      ∧ Event.moveProvider ∉
          (runtimeM Unit ["wasi:cli"] true (ProviderM.mk () ["wasi:cli"])).1) :=
  ⟨⟨by decide, by decide⟩,
    runtime_link_collision_no_store Unit ["wasi:cli"] (ProviderM.mk () ["wasi:cli"])
      "wasi:cli" (by decide) (by decide)⟩

/-! ## Claim C5 -/

/-- C5 counterexample: at a concrete input, the provider's registration
entry point runs strictly before the Execution Context's Resource Table is
built (`add_all_to_linker` is called on line 68 of `src/src/lib.rs`,
`RuntimeView::new` only on line 70), so the table and WASI context do not
yet exist when registration runs. -/
theorem execution_context_before_register_cex :
    (runtimeM Unit [] false (ProviderM.mk () ["host"])).1 =
      [Event.buildEngine, Event.buildLinker, Event.register, Event.buildTable,
        Event.buildCtx, Event.moveProvider, Event.buildStore]
    ∧ (runtimeM Unit [] false (ProviderM.mk () ["host"])).1.indexOf Event.register
        < (runtimeM Unit [] false (ProviderM.mk () ["host"])).1.indexOf Event.buildTable := by
  exact ⟨rfl, by decide⟩

/-- C5 amended: on every successful construction, the Resource Table and
the OS-capability context are built inside `RuntimeView::new` — after the
provider's registration entry point has already run, but before the
provider value is moved, unchanged, into the Execution Context — and the
Store is built last. -/
theorem execution_context_order (P : Type) (wasiNames : List String)
    (with_wasi : Bool) (pv : ProviderM P) (r : RuntimeM P)
    (h : (runtimeM P wasiNames with_wasi pv).2 = Except.ok r) :
    (∃ tr0, (runtimeM P wasiNames with_wasi pv).1 =
        tr0 ++ [Event.register, Event.buildTable, Event.buildCtx, Event.moveProvider,
            Event.buildStore]
      ∧ Event.buildTable ∉ tr0 ∧ Event.buildCtx ∉ tr0 ∧ Event.register ∉ tr0)
    ∧ r.store.data.nested_view = pv.state := by
  cases with_wasi with
  | false =>
    have hdef : runtimeM P wasiNames false pv
        = runtimeFromLinker P pv ⟨[]⟩ [Event.buildEngine, Event.buildLinker] := rfl
    rw [hdef] at h ⊢
    rcases runtimeFromLinker_ok P pv ⟨[]⟩ _ r h with ⟨htr, l2, hreg, hr2⟩
    subst hr2
    exact ⟨⟨[Event.buildEngine, Event.buildLinker], htr, by decide, by decide, by decide⟩,
      rfl⟩
  | true =>
    cases hb : bindAll ⟨[]⟩ wasiNames with
    | error e0 =>
      have hdef : runtimeM P wasiNames true pv
          = ([Event.buildEngine, Event.buildLinker, Event.installWasi], Except.error e0) := by
        unfold runtimeM
        rw [hb]
        rfl
      rw [hdef] at h
      exact Except.noConfusion h
    | ok l1 =>
      have hdef : runtimeM P wasiNames true pv
          = runtimeFromLinker P pv l1
              [Event.buildEngine, Event.buildLinker, Event.installWasi] := by
        unfold runtimeM
        rw [hb]
        rfl
      rw [hdef] at h ⊢
      rcases runtimeFromLinker_ok P pv l1 _ r h with ⟨htr, l2, hreg, hr2⟩
      subst hr2
      exact ⟨⟨[Event.buildEngine, Event.buildLinker, Event.installWasi], htr,
        by decide, by decide, by decide⟩, rfl⟩

/-- The Runtime assembled at the concrete input of the C5 witness. -/
def rtWitnessC5 : RuntimeM Unit :=
  ⟨engineDefault, ⟨["host"]⟩, ⟨engineDefault, RuntimeViewM.new ()⟩⟩

/-- Witness for `execution_context_order` at a concrete successful
construction. -/
theorem execution_context_order_witness :
    (runtimeM Unit [] false (ProviderM.mk () ["host"])).2 = Except.ok rtWitnessC5
    ∧ ((∃ tr0, (runtimeM Unit [] false (ProviderM.mk () ["host"])).1 =
          tr0 ++ [Event.register, Event.buildTable, Event.buildCtx, Event.moveProvider,
              Event.buildStore]
        ∧ Event.buildTable ∉ tr0 ∧ Event.buildCtx ∉ tr0 ∧ Event.register ∉ tr0)
      ∧ rtWitnessC5.store.data.nested_view = ()) :=
  ⟨rfl, execution_context_order Unit [] false (ProviderM.mk () ["host"]) rtWitnessC5 rfl⟩

/-! ## Claim C9 -/

/-- C9: the Execution Context of every successfully constructed Runtime
contains a newly built Resource Table and a WASI context with inherited
stdio, whatever the value of `with_wasi`; the flag only determines whether
the reserved WASI names are installed into the Linker. -/
theorem runtime_view_fresh_ctx_and_table (P : Type) (wasiNames : List String)
    (with_wasi : Bool) (pv : ProviderM P) (r : RuntimeM P)
    (h : (runtimeM P wasiNames with_wasi pv).2 = Except.ok r) :
    r.store.data.table = RTable.new
    ∧ r.store.data.ctx = WasiCtxM.mk true
    ∧ r.store.data.nested_view = pv.state
    ∧ r.linker.bound = (if with_wasi then wasiNames else []) ++ pv.binds := by
  cases with_wasi with
  | false =>
    have hdef : runtimeM P wasiNames false pv
        = runtimeFromLinker P pv ⟨[]⟩ [Event.buildEngine, Event.buildLinker] := rfl
    rw [hdef] at h
    rcases runtimeFromLinker_ok P pv ⟨[]⟩ _ r h with ⟨_, l2, hreg, hr2⟩
    subst hr2
    have hbound := bindAll_ok_bound pv.binds ⟨[]⟩ l2 hreg
    refine ⟨rfl, rfl, rfl, ?_⟩
    simpa using hbound
  | true =>
    cases hb : bindAll ⟨[]⟩ wasiNames with
    | error e0 =>
      have hdef : runtimeM P wasiNames true pv
          = ([Event.buildEngine, Event.buildLinker, Event.installWasi], Except.error e0) := by
        unfold runtimeM
        rw [hb]
        rfl
      rw [hdef] at h
      exact Except.noConfusion h
    | ok l1 =>
      have hdef : runtimeM P wasiNames true pv
          = runtimeFromLinker P pv l1
              [Event.buildEngine, Event.buildLinker, Event.installWasi] := by
        unfold runtimeM
        rw [hb]
        rfl
      rw [hdef] at h
      rcases runtimeFromLinker_ok P pv l1 _ r h with ⟨_, l2, hreg, hr2⟩
      subst hr2
      have hwb : l1.bound = wasiNames := by
        simpa using bindAll_ok_bound wasiNames ⟨[]⟩ l1 hb
      have hbound := bindAll_ok_bound pv.binds l1 l2 hreg
      refine ⟨rfl, rfl, rfl, ?_⟩
      simp [hbound, hwb]

/-- The Runtime assembled at the concrete input of the C9 witness. -/
def rtWitnessC9 : RuntimeM Unit :=
  ⟨engineDefault, ⟨["host"]⟩, ⟨engineDefault, RuntimeViewM.new ()⟩⟩

/-- Witness for `runtime_view_fresh_ctx_and_table` at a concrete successful
construction with `with_wasi = false`. -/
theorem runtime_view_fresh_ctx_and_table_witness :
    (runtimeM Unit [] false (ProviderM.mk () ["host"])).2 = Except.ok rtWitnessC9
    ∧ (rtWitnessC9.store.data.table = RTable.new
      ∧ rtWitnessC9.store.data.ctx = WasiCtxM.mk true
      ∧ rtWitnessC9.store.data.nested_view = ()
      ∧ rtWitnessC9.linker.bound = (if false then [] else []) ++ ["host"]) :=
  ⟨rfl, runtime_view_fresh_ctx_and_table Unit [] false (ProviderM.mk () ["host"])
    rtWitnessC9 rfl⟩

/-! ## Helper lemmas: Resource Table -/

theorem lookupEntries_eq_none (α : Type) (es : List (Nat × Option α)) (h : Nat)
    (hne : ∀ e ∈ es, e.1 ≠ h) : lookupEntries es h = none := by
  induction es with
  | nil => rfl
  | cons e es ih =>
    have h1 : e.1 ≠ h := hne e (List.mem_cons_self e es)
    simp only [lookupEntries, if_neg h1]
    exact ih fun e' he' => hne e' (List.mem_cons_of_mem e he')

theorem lookupEntries_append_last (α : Type) (es : List (Nat × Option α)) (n : Nat)
    (v : Option α) (hne : ∀ e ∈ es, e.1 ≠ n) :
    lookupEntries (es ++ [(n, v)]) n = some v := by
  induction es with
  | nil => simp [lookupEntries]
  | cons e es ih =>
    have h1 : e.1 ≠ n := hne e (List.mem_cons_self e es)
    simp only [List.cons_append, lookupEntries, if_neg h1]
    exact ih fun e' he' => hne e' (List.mem_cons_of_mem e he')

theorem lookupEntries_tombstone_self (α : Type) (es : List (Nat × Option α)) (h : Nat)
    (x : Option α) (hl : lookupEntries es h = some x) :
    lookupEntries (tombstoneEntries es h) h = some none := by
  induction es with
  | nil => exact Option.noConfusion hl
  | cons e es ih =>
    by_cases h1 : e.1 = h
    · simp only [tombstoneEntries, if_pos h1, lookupEntries]
    · simp only [lookupEntries, if_neg h1] at hl
      simp only [tombstoneEntries, if_neg h1, lookupEntries, if_neg h1]
      exact ih hl

/-! ## Claim C2 -/

/-- C2: for every handle obtained from `insert`, `get` succeeds immediately
after insertion; immediately after a successful `remove` or `take` of a
handle, `get`, a second `remove` and `take` on that handle all fail with
`NotFound` (total functions — no panic, no stale value); and every
operation on a never-issued handle fails with `NotFound`. -/
theorem resource_table_handle_lifecycle (α : Type) (t : RTable α) (v : α) (h : Nat) :
    (RTable.WF t → (t.insert v).2.get (t.insert v).1 = Except.ok v)
    ∧ (∀ v' t', t.remove h = Except.ok (v', t') →
        t'.get h = Except.error TableError.notFound
        ∧ t'.remove h = Except.error TableError.notFound
        ∧ t'.take h = Except.error TableError.notFound)
    ∧ (∀ v' t', t.take h = Except.ok (v', t') →
        t'.get h = Except.error TableError.notFound
        ∧ t'.remove h = Except.error TableError.notFound
        ∧ t'.take h = Except.error TableError.notFound)
    ∧ (RTable.WF t → t.next ≤ h →
        t.get h = Except.error TableError.notFound
        ∧ t.remove h = Except.error TableError.notFound
        ∧ t.take h = Except.error TableError.notFound) := by
  refine ⟨?_, ?_, ?_, ?_⟩
  · intro hwf
    have hne : ∀ e ∈ t.entries, e.1 ≠ t.next := fun e he => Nat.ne_of_lt (hwf e he)
    have hl := lookupEntries_append_last α t.entries t.next (some v) hne
    simp only [RTable.insert, RTable.get, hl]
  · intro v' t' hrem
    rcases hcase : lookupEntries t.entries h with _ | x
    · simp only [RTable.remove, hcase] at hrem
      exact Except.noConfusion hrem
    · rcases x with _ | v0
      · simp only [RTable.remove, hcase] at hrem
        exact Except.noConfusion hrem
      · simp only [RTable.remove, hcase, Except.ok.injEq, Prod.mk.injEq] at hrem
        rcases hrem with ⟨hv, ht⟩
        subst ht
        have hts := lookupEntries_tombstone_self α t.entries h (some v0) hcase
        exact ⟨by simp only [RTable.get, hts], by simp only [RTable.remove, hts],
          by simp only [RTable.take, hts]⟩
  · intro v' t' htake
    rcases hcase : lookupEntries t.entries h with _ | x
    · simp only [RTable.take, hcase] at htake
      exact Except.noConfusion htake
    · rcases x with _ | v0
      · simp only [RTable.take, hcase] at htake
        exact Except.noConfusion htake
      · simp only [RTable.take, hcase, Except.ok.injEq, Prod.mk.injEq] at htake
        rcases htake with ⟨hv, ht⟩
        subst ht
        have hts := lookupEntries_tombstone_self α t.entries h (some v0) hcase
        exact ⟨by simp only [RTable.get, hts], by simp only [RTable.remove, hts],
          by simp only [RTable.take, hts]⟩
  · intro hwf hle
    have hne : ∀ e ∈ t.entries, e.1 ≠ h :=
      fun e he => Nat.ne_of_lt (Nat.lt_of_lt_of_le (hwf e he) hle)
    have hl := lookupEntries_eq_none α t.entries h hne
    exact ⟨by simp only [RTable.get, hl], by simp only [RTable.remove, hl],
      by simp only [RTable.take, hl]⟩

/-- A one-entry table with live handle 0, for the C2 witness. -/
def tblW0 : RTable String := ⟨[(0, some "a")], 1⟩

/-- The table of `tblW0` after removing handle 0, for the C2 witness. -/
def tblW1 : RTable String := ⟨[(0, none)], 1⟩

/-- Witness for `resource_table_handle_lifecycle` on a concrete table:
insert-then-get, remove-then-NotFound, and a never-issued handle. -/
theorem resource_table_handle_lifecycle_witness :
    (RTable.WF tblW0 ∧ tblW0.remove 0 = Except.ok ("a", tblW1) ∧ tblW0.next ≤ 5)
    ∧ ((tblW0.insert "b").2.get (tblW0.insert "b").1 = Except.ok "b")
    ∧ (tblW1.get 0 = Except.error TableError.notFound
      ∧ tblW1.remove 0 = Except.error TableError.notFound
      ∧ tblW1.take 0 = Except.error TableError.notFound)
    ∧ (tblW0.get 5 = Except.error TableError.notFound
      ∧ tblW0.remove 5 = Except.error TableError.notFound
      ∧ tblW0.take 5 = Except.error TableError.notFound) :=
  ⟨⟨by decide, rfl, by decide⟩,
    (resource_table_handle_lifecycle String tblW0 "b" 0).1 (by decide),
    (resource_table_handle_lifecycle String tblW0 "a" 0).2.1 "a" tblW1 rfl,
    (resource_table_handle_lifecycle String tblW0 "a" 5).2.2.2 (by decide) (by decide)⟩

/-! ## Claim C4 -/

/-- C4: `take_handle` returns the original handle and invalidates it for
all further reads through that holder (the stored value becomes the
`u32::MAX` sentinel); the destructor of the taken holder becomes a no-op,
while dropping an untaken holder does invoke the drop intrinsic on its
handle. -/
theorem take_handle_invalidates_and_drop_noop (h : Nat) (hvalid : h ≠ u32Max) :
    (ResourceR.take_handle ⟨h⟩).1 = h
    ∧ ((ResourceR.take_handle ⟨h⟩).2).handleLoad = u32Max
    ∧ resourceDropCall (ResourceR.take_handle ⟨h⟩).2 = none
    ∧ resourceDropCall ⟨h⟩ = some h := by
  refine ⟨rfl, rfl, ?_, ?_⟩
  · simp [resourceDropCall, ResourceR.take_handle]
  · simp [resourceDropCall, hvalid]

/-- Witness for `take_handle_invalidates_and_drop_noop` at handle 7. -/
theorem take_handle_invalidates_and_drop_noop_witness :
    (7 ≠ u32Max)
    ∧ ((ResourceR.take_handle ⟨7⟩).1 = 7
      ∧ ((ResourceR.take_handle ⟨7⟩).2).handleLoad = u32Max
      ∧ resourceDropCall (ResourceR.take_handle ⟨7⟩).2 = none
      ∧ resourceDropCall ⟨7⟩ = some 7) :=
  ⟨by decide, take_handle_invalidates_and_drop_noop 7 (by decide)⟩

/-! ## Claim C10 -/

/-- C10: the first `take_handle` returns the original handle value and
stores the sentinel `u32::MAX`; a second `take_handle` on the same holder
neither fails nor panics — it returns `u32::MAX` and leaves the holder
unchanged (idempotent) — and a plain handle read also returns `u32::MAX`. -/
theorem take_handle_idempotent (h : Nat) :
    (ResourceR.take_handle ⟨h⟩).1 = h
    ∧ ((ResourceR.take_handle ⟨h⟩).2).take_handle
        = (u32Max, (ResourceR.take_handle ⟨h⟩).2)
    ∧ ((ResourceR.take_handle ⟨h⟩).2).handleLoad = u32Max :=
  ⟨rfl, rfl, rfl⟩

/-! ## Claim C6 -/

/-- C6: on one Runtime whose provider is seeded with the message
`"Hello, World!"`, two sequential invocations of the guest's exported
`hello_world` yield `"Hello, World! 0"` and then `"Hello, World! 1"`. -/
theorem scenario_a_two_calls :
    (invoke (freshSession "Hello, World!")).1 = "Hello, World! 0"
    ∧ (invoke (invoke (freshSession "Hello, World!")).2).1 = "Hello, World! 1" := by
  constructor
  · decide
  · decide

/-! ## Claim C7 -/

/-- C7: a guest that constructs the `foo-resource` (whose host constructor
stores the message `"noodles"` in the Resource Table) and calls its `foo`
method through the exported `test` entry point yields exactly
`"Hello, World! noodles"`. -/
theorem scenario_b_resource_message :
    guestTest RTable.new = Except.ok "Hello, World! noodles" := by
  rfl

/-! ## Claim C8 -/

/-- C8 counterexample: the scenario-A call counter is not state owned by
the Capability Provider instance: with the provider value held fixed at
`SimpleComponentView.mk "Hello, World!"`, the invocation result still
differs between guest counter states, and an invocation leaves the
provider component of the session unchanged — the counter is the guest
component's own `static COUNTER`, not provider state. -/
theorem counter_not_provider_state_cex :
    (hello_world ⟨"Hello, World!"⟩ ⟨0⟩).1 ≠ (hello_world ⟨"Hello, World!"⟩ ⟨1⟩).1
    ∧ (invoke (freshSession "Hello, World!")).2.view
        = (freshSession "Hello, World!").view := by
  constructor
  · decide
  · rfl

/-- C8 amended: the counter is a static of the guest component rather than
provider-owned state, but it is still scoped to one Runtime because each
Runtime instantiates the guest component with its own fresh instance
state: however many invocations one Runtime performs, a second Runtime in
the same process is unaffected, and the fresh Runtime's first invocation
observes count 0. -/
theorem counter_scoped_per_runtime (n : Nat) (msg1 msg2 : String) :
    (invokeFirstN n (freshSession msg1, freshSession msg2)).2 = freshSession msg2
    ∧ (invoke (invokeFirstN n (freshSession msg1, freshSession msg2)).2).1 = msg2 ++ " 0"
    ∧ (freshSession msg2).guest.counter = 0 := by
  have hsnd : ∀ (m : Nat) (s1 s2 : Session), (invokeFirstN m (s1, s2)).2 = s2 := by
    intro m
    induction m with
    | zero => intro s1 s2; rfl
    | succ m ih => intro s1 s2; exact ih (invoke s1).2 s2
  have hfirst : (invoke (freshSession msg2)).1 = msg2 ++ " 0" := by
    show get_data ⟨msg2⟩ ++ " " ++ toString (0 : Int) = msg2 ++ " 0"
    rw [show toString (0 : Int) = "0" by decide]
    apply String.ext
    simp [get_data, String.data_append]
  refine ⟨hsnd n _ _, ?_, rfl⟩
  rw [hsnd n _ _]
  exact hfirst
